import Mathlib

/-!
Verification development for the CD-catalog database access layer
(source file cd_dbm/cd_access.c).

The C file is a thin layer over an ndbm-style key-value engine.  The engine
(dbm_open, dbm_fetch, dbm_store, dbm_delete, dbm_firstkey, dbm_nextkey) is an
external dependency; it is modelled here as an association list of
(key, value) pairs carrying an iteration cursor, which is exactly the
interface contract the C layer relies on: exact-match lookup, replace-style
upsert, delete-if-present, and first/next iteration over all stored keys in a
stable engine order.

C strings are modelled as Lean strings (no interior NUL bytes); a possibly
NULL char pointer is modelled as an Option String.  Fixed-size key buffers
produced by memset-then-strcpy or memset-then-sprintf are modelled as
byte-exact character lists: the written text followed by NUL padding up to
the buffer size.  Record structs are stored verbatim as values, mirroring the
C code storing the raw struct bytes.  Where the C code has undefined
behavior (strlen of a NULL pointer in the delete functions, sprintf
overflowing the fixed track-key buffer), the model returns none; every
defined execution path returns some result.
-/

/-- Modelled from the spec: the fixed catalog-identifier bound CAT_CAT_LEN is
defined in the header cd_data.h, which is not among the provided sources; the
spec fixes it only as a small constant bound on the catalog string.  The
concrete value 30 is used here; no claim depends on the exact value. -/
def CAT_CAT_LEN : Nat := 30

/-- Modelled from the spec: the catalog record layout from cd_data.h (not
among the provided sources): the catalog identifier key field plus
descriptive payload fields (title, type, artist), stored verbatim as a
fixed-size value blob. -/
structure cdc_entry where
  catalog : String
  title : String
  cd_type : String
  artist : String
deriving DecidableEq

/-- Modelled from the spec: the track record layout from cd_data.h (not
among the provided sources): the catalog identifier, the track number and a
track text payload field. -/
structure cdt_entry where
  catalog : String
  track_no : Int
  track_txt : String
deriving DecidableEq

/-- The all-zero catalog record produced by memset: every string field empty.
Callers recognise failure by the empty catalog field. -/
def empty_cdc : cdc_entry := ⟨"", "", "", ""⟩

/-- The all-zero track record produced by memset. -/
def empty_cdt : cdt_entry := ⟨"", 0, ""⟩

/-- A fixed-size key buffer: memset to zero, then the string copied in.  The
result is the text followed by NUL padding up to the buffer size; the whole
buffer (padding included) is the key. -/
def zeroPad (s : String) (size : Nat) : List Char :=
  s.data ++ List.replicate (size - s.length) (Char.ofNat 0)

/-- The catalog key: the buffer char entry_to_find[CAT_CAT_LEN + 1], zeroed
and strcpy-filled; all CAT_CAT_LEN + 1 bytes are used as the dbm key. -/
def catKey (s : String) : List Char :=
  zeroPad s (CAT_CAT_LEN + 1)

/-- The track key built by sprintf(buf, "%s %d", catalog, track_no) into the
buffer char[CAT_CAT_LEN + 10]; all CAT_CAT_LEN + 10 bytes are used as the
dbm key. -/
def trackKey (s : String) (n : Int) : List Char :=
  zeroPad (s ++ " " ++ toString n) (CAT_CAT_LEN + 10)

/-- Number of bytes the sprintf "%s %d" call writes: the catalog text, one
space, the decimal text of the track number (with a minus sign when
negative), and the terminating NUL. -/
def track_sprintf_len (s : String) (n : Int) : Nat :=
  s.length + 1 + (toString n).length + 1

/-- Exact-match association-list lookup, the semantics of dbm_fetch. -/
def assoc_find {V : Type} (k : List Char) : List (List Char × V) → Option V
  | [] => none
  | p :: r => if p.1 = k then some p.2 else assoc_find k r

/-- Replace-style upsert, the semantics of dbm_store with DBM_REPLACE:
overwrite the value stored at the key, or append a fresh pair. -/
def store_replace {V : Type} (k : List Char) (v : V) : List (List Char × V) → List (List Char × V)
  | [] => [(k, v)]
  | p :: r => if p.1 = k then (k, v) :: r else p :: store_replace k v r

/-- Removal of a key, the semantics of dbm_delete on the stored pairs. -/
def assoc_erase {V : Type} (k : List Char) : List (List Char × V) → List (List Char × V)
  | [] => []
  | p :: r => if p.1 = k then assoc_erase k r else p :: assoc_erase k r

/-- One open dbm table: the stored pairs in engine iteration order, plus the
iteration cursor of dbm_firstkey/dbm_nextkey.  The cursor is the suffix of
the entry list starting at the current iteration position; an empty cursor
means the iteration is exhausted (or was never started). -/
structure DBMTable (V : Type) where
  entries : List (List Char × V)
  cursor : List (List Char × V)
deriving DecidableEq

/-- dbm_fetch: exact lookup; does not move the iteration cursor. -/
def dbm_fetch {V : Type} (t : DBMTable V) (k : List Char) : Option V :=
  assoc_find k t.entries

/-- dbm_store with DBM_REPLACE: always succeeds, result code 0. -/
def dbm_store {V : Type} (t : DBMTable V) (k : List Char) (v : V) : DBMTable V × Int :=
  ({ t with entries := store_replace k v t.entries }, 0)

/-- dbm_delete: result code 0 exactly when the key was present (deleting an
absent key fails with a nonzero code and leaves the table unchanged). -/
def dbm_delete {V : Type} (t : DBMTable V) (k : List Char) : DBMTable V × Int :=
  if (assoc_find k t.entries).isSome then
    ({ t with entries := assoc_erase k t.entries }, 0)
  else
    (t, -1)

/-- dbm_firstkey: position the cursor at the start of the table and return
the first key, or NULL (none) for an empty table. -/
def dbm_firstkey {V : Type} (t : DBMTable V) : DBMTable V × Option (List Char) :=
  ({ t with cursor := t.entries }, t.entries.head?.map (fun p => p.1))

/-- dbm_nextkey: advance the cursor one position and return the key there,
or NULL (none) once the iteration is exhausted. -/
def dbm_nextkey {V : Type} (t : DBMTable V) : DBMTable V × Option (List Char) :=
  ({ t with cursor := t.cursor.tail }, t.cursor.tail.head?.map (fun p => p.1))

/-- The two backing files (cdc_data and cdt_data); none models an absent
(never created or unlinked) file pair. -/
structure FileSys where
  cdc_file : Option (List (List Char × cdc_entry))
  cdt_file : Option (List (List Char × cdt_entry))
deriving DecidableEq

/-- The process-wide state of cd_access.c: the two file-scope handles
cdc_dbm_ptr and cdt_dbm_ptr (none models a NULL pointer, i.e. closed), the
function-scope static local_first_call of search_cdc_entry, and the backing
files. -/
structure GlobalState where
  cdc_dbm_ptr : Option (DBMTable cdc_entry)
  cdt_dbm_ptr : Option (DBMTable cdt_entry)
  local_first_call : Bool
  fs : FileSys
deriving DecidableEq

/-- dbm_open with O_CREAT | O_RDWR: the environment decides success (ok);
on success the table holds the file contents, an absent file being created
empty.  On failure the handle is NULL. -/
def dbm_open_table {V : Type} (ok : Bool) (file : Option (List (List Char × V))) :
    Option (DBMTable V) :=
  if ok then some ⟨file.getD [], []⟩ else none

/-- database_initialize: close any open handles (flushing their contents to
the backing files), unlink all four backing files when new_database is set,
then open-or-create both tables.  If either open fails both handles are set
back to NULL and 0 is returned; on success 1 is returned.  The two Bool
parameters are the environment's success verdicts for the two dbm_open
calls. -/
def database_initialize (open_ok_cdc open_ok_cdt : Bool) (new_database : Bool)
    (st : GlobalState) : Int × GlobalState :=
  let fs1 := match st.cdc_dbm_ptr with
    | some t => { st.fs with cdc_file := some t.entries }
    | none => st.fs
  let fs2 := match st.cdt_dbm_ptr with
    | some t => { fs1 with cdt_file := some t.entries }
    | none => fs1
  let fs3 := if new_database then ({ cdc_file := none, cdt_file := none } : FileSys) else fs2
  let cdc_new := dbm_open_table open_ok_cdc fs3.cdc_file
  let cdt_new := dbm_open_table open_ok_cdt fs3.cdt_file
  let fs4 : FileSys :=
    { cdc_file := if open_ok_cdc then some (fs3.cdc_file.getD []) else fs3.cdc_file,
      cdt_file := if open_ok_cdt then some (fs3.cdt_file.getD []) else fs3.cdt_file }
  if cdc_new.isNone || cdt_new.isNone then
    (0, { st with cdc_dbm_ptr := none, cdt_dbm_ptr := none, fs := fs4 })
  else
    (1, { st with cdc_dbm_ptr := cdc_new, cdt_dbm_ptr := cdt_new, fs := fs4 })

/-- database_close: close any open handle (flushing its contents to its
backing file) and set both pointers to NULL.  Idempotent. -/
def database_close (st : GlobalState) : GlobalState :=
  let fs1 := match st.cdc_dbm_ptr with
    | some t => { st.fs with cdc_file := some t.entries }
    | none => st.fs
  let fs2 := match st.cdt_dbm_ptr with
    | some t => { fs1 with cdt_file := some t.entries }
    | none => fs1
  { st with cdc_dbm_ptr := none, cdt_dbm_ptr := none, fs := fs2 }

/-- get_cdc_entry: sanity checks (database open, non-NULL argument, key
shorter than CAT_CAT_LEN), then an exact dbm_fetch on the padded catalog
key; any failure returns the all-zero record. -/
def get_cdc_entry (cd_catalog_ptr : Option String) (st : GlobalState) : cdc_entry :=
  match st.cdc_dbm_ptr, st.cdt_dbm_ptr with
  | some t, some _ =>
    match cd_catalog_ptr with
    | none => empty_cdc
    | some s =>
      if s.length ≥ CAT_CAT_LEN then empty_cdc
      else
        match dbm_fetch t (catKey s) with
        | some v => v
        | none => empty_cdc
  | _, _ => empty_cdc

/-- get_cdt_entry: same checks, then an exact dbm_fetch on the composite
track key.  The sprintf into the fixed char[CAT_CAT_LEN + 10] buffer is
unchecked; when the written text does not fit the behavior of the C code is
undefined (modelled as none).  Every defined path returns some record. -/
def get_cdt_entry (cd_catalog_ptr : Option String) (track_no : Int) (st : GlobalState) :
    Option cdt_entry :=
  match st.cdc_dbm_ptr, st.cdt_dbm_ptr with
  | some _, some u =>
    match cd_catalog_ptr with
    | none => some empty_cdt
    | some s =>
      if s.length ≥ CAT_CAT_LEN then some empty_cdt
      else if CAT_CAT_LEN + 10 < track_sprintf_len s track_no then none
      else
        some (match dbm_fetch u (trackKey s track_no) with
          | some v => v
          | none => empty_cdt)
  | _, _ => some empty_cdt

/-- add_cdc_entry: checks (database open, catalog shorter than CAT_CAT_LEN),
then dbm_store with DBM_REPLACE under the padded catalog key; returns 1 on
engine success (store result 0) and 0 otherwise. -/
def add_cdc_entry (entry_to_add : cdc_entry) (st : GlobalState) : Int × GlobalState :=
  match st.cdc_dbm_ptr, st.cdt_dbm_ptr with
  | some t, some _ =>
    if entry_to_add.catalog.length ≥ CAT_CAT_LEN then (0, st)
    else
      match dbm_store t (catKey entry_to_add.catalog) entry_to_add with
      | (t', r) =>
        (if r = 0 then 1 else 0, { st with cdc_dbm_ptr := some t' })
  | _, _ => (0, st)

/-- add_cdt_entry: same contract under the composite track key.  The sprintf
into the fixed char[CAT_CAT_LEN + 10] key buffer is unchecked; an
overflowing write is undefined behavior (modelled as none). -/
def add_cdt_entry (entry_to_add : cdt_entry) (st : GlobalState) :
    Option (Int × GlobalState) :=
  match st.cdc_dbm_ptr, st.cdt_dbm_ptr with
  | some _, some u =>
    if entry_to_add.catalog.length ≥ CAT_CAT_LEN then some (0, st)
    else if CAT_CAT_LEN + 10 < track_sprintf_len entry_to_add.catalog entry_to_add.track_no then
      none
    else
      match dbm_store u (trackKey entry_to_add.catalog entry_to_add.track_no) entry_to_add with
      | (u', r) =>
        some (if r = 0 then 1 else 0, { st with cdt_dbm_ptr := some u' })
  | _, _ => some (0, st)

/-- del_cdc_entry: checks the handles and the key length, then dbm_delete on
the padded catalog key; returns 1 exactly when the engine delete succeeded.
Unlike the get functions it never checks the pointer for NULL: with a NULL
argument the strlen call is undefined behavior (modelled as none). -/
def del_cdc_entry (cd_catalog_ptr : Option String) (st : GlobalState) :
    Option (Int × GlobalState) :=
  match st.cdc_dbm_ptr, st.cdt_dbm_ptr with
  | some t, some _ =>
    match cd_catalog_ptr with
    | none => none
    | some s =>
      if s.length ≥ CAT_CAT_LEN then some (0, st)
      else
        match dbm_delete t (catKey s) with
        | (t', r) =>
          some (if r = 0 then 1 else 0, { st with cdc_dbm_ptr := some t' })
  | _, _ => some (0, st)

/-- del_cdt_entry: same contract under the composite track key; no NULL
check (undefined behavior, modelled as none) and an unchecked sprintf into
the fixed char[CAT_CAT_LEN + 10] buffer (overflow is undefined behavior,
modelled as none). -/
def del_cdt_entry (cd_catalog_ptr : Option String) (track_no : Int) (st : GlobalState) :
    Option (Int × GlobalState) :=
  match st.cdc_dbm_ptr, st.cdt_dbm_ptr with
  | some _, some u =>
    match cd_catalog_ptr with
    | none => none
    | some s =>
      if s.length ≥ CAT_CAT_LEN then some (0, st)
      else if CAT_CAT_LEN + 10 < track_sprintf_len s track_no then none
      else
        match dbm_delete u (trackKey s track_no) with
        | (u', r) =>
          some (if r = 0 then 1 else 0, { st with cdt_dbm_ptr := some u' })
  | _, _ => some (0, st)

/-- strstr(hay, needle) returns non-NULL exactly when the needle occurs
somewhere inside the hay (the empty needle always matches). -/
def isSubstring (needle hay : List Char) : Bool :=
  (List.range (hay.length + 1)).any (fun i => needle.isPrefixOf (hay.drop i))

/-- Whether the search string occurs in a record's catalog field, the match
test of search_cdc_entry. -/
def cat_match (cd_catalog : String) (e : cdc_entry) : Bool :=
  isSubstring cd_catalog.data e.catalog.data

/-- The do-while loop of search_cdc_entry: starting from the key returned by
dbm_firstkey or dbm_nextkey, fetch the record at the current key; if the
search string occurs in its catalog field stop there, otherwise zero the
record, advance with dbm_nextkey and repeat; stop with the all-zero record
when the keys are exhausted.  The loop visits each remaining cursor position
at most once, so any fuel of at least cursor length + 1 is exact; the
caller passes exactly that.  (If a matching record had an empty catalog
field the C loop would refetch the same key forever; the model returns the
record in that corner.) -/
def search_loop (cd_catalog : List Char) :
    Nat → DBMTable cdc_entry → Option (List Char) → cdc_entry × DBMTable cdc_entry
  | 0, t, _ => (empty_cdc, t)
  | _ + 1, t, none => (empty_cdc, t)
  | fuel + 1, t, some key =>
    match dbm_fetch t key with
    | none => (empty_cdc, t)
    | some e =>
      if isSubstring cd_catalog e.catalog.data then
        (e, t)
      else
        match dbm_nextkey t with
        | (t', k') => search_loop cd_catalog fuel t' k'

/-- search_cdc_entry: after the usual checks, the static local_first_call
latch forces *first_call_ptr to true on the very first call since process
start; a true flag restarts the iteration with dbm_firstkey (and resets the
flag to false), a false flag continues with dbm_nextkey; then the loop scans
for the next record whose catalog field contains the search string.  Returns
the record found (all-zero on exhaustion or failed checks), the flag value
left in *first_call_ptr, and the updated process state. -/
def search_cdc_entry (cd_catalog_ptr : Option String) (first_call_ptr : Option Bool)
    (st : GlobalState) : cdc_entry × Option Bool × GlobalState :=
  match st.cdc_dbm_ptr, st.cdt_dbm_ptr with
  | some t, some _ =>
    match cd_catalog_ptr, first_call_ptr with
    | some cat, some fc0 =>
      if cat.length ≥ CAT_CAT_LEN then (empty_cdc, some fc0, st)
      else
        let fc1 := if st.local_first_call then true else fc0
        let lfc1 := if st.local_first_call then false else st.local_first_call
        let fc2 := if fc1 then false else fc1
        let step := if fc1 then dbm_firstkey t else dbm_nextkey t
        let r := search_loop cat.data (step.1.cursor.length + 1) step.1 step.2
        (r.1, some fc2, { st with cdc_dbm_ptr := some r.2, local_first_call := lfc1 })
    | _, _ => (empty_cdc, first_call_ptr, st)
  | _, _ => (empty_cdc, first_call_ptr, st)

/-- The caller protocol for a scan session: call search_cdc_entry n times in
a row, each call passing back the pointed-to flag and the process state the
previous call left behind, and collect the returned records. -/
def scan_calls (cd_catalog_ptr : Option String) (first_call_ptr : Option Bool)
    (st : GlobalState) : Nat → List cdc_entry
  | 0 => []
  | n + 1 =>
    match search_cdc_entry cd_catalog_ptr first_call_ptr st with
    | (e, fc', st') => e :: scan_calls cd_catalog_ptr fc' st' n

/-! ## Helper lemmas about the engine model -/

/-- Looking up a key right after a replace-style store at that key yields the
stored value. -/
theorem assoc_find_store_replace {V : Type} (k : List Char) (v : V)
    (l : List (List Char × V)) : assoc_find k (store_replace k v l) = some v := by
  induction l with
  | nil => simp [store_replace, assoc_find]
  | cons p r ih =>
    by_cases hp : p.1 = k
    · simp [store_replace, hp, assoc_find]
    · simp [store_replace, hp, assoc_find, ih]

/-- Looking up a key right after erasing it yields nothing. -/
theorem assoc_find_assoc_erase {V : Type} (k : List Char)
    (l : List (List Char × V)) : assoc_find k (assoc_erase k l) = none := by
  induction l with
  | nil => simp [assoc_erase, assoc_find]
  | cons p r ih =>
    by_cases hp : p.1 = k
    · simp [assoc_erase, hp, ih]
    · simp [assoc_erase, hp, assoc_find, ih]

/-- In a table with pairwise distinct keys, looking up the key of the head
of any suffix yields exactly the value paired with it there. -/
theorem assoc_find_of_suffix {V : Type} {es r : List (List Char × V)}
    {p : List Char × V} (hdist : es.Pairwise (fun a b => a.1 ≠ b.1))
    (hsuf : (p :: r) <:+ es) : assoc_find p.1 es = some p.2 := by
  obtain ⟨pre, rfl⟩ := hsuf
  induction pre with
  | nil => simp [assoc_find]
  | cons a pre ih =>
    rw [List.cons_append] at hdist ⊢
    rw [List.pairwise_cons] at hdist
    have hne : a.1 ≠ p.1 :=
      hdist.1 p (List.mem_append_right pre (List.mem_cons_self p r))
    simp only [assoc_find, if_neg hne]
    exact ih hdist.2

/-! ## C1, C9, C4: round trips and delete-then-get -/

/-- C1: with the store open and a catalog string shorter than CAT_CAT_LEN,
add_cdc_entry succeeds (returns 1) and a subsequent get_cdc_entry on the same
catalog returns a record equal to the one stored. -/
theorem add_then_get_cdc (fs : FileSys) (t : DBMTable cdc_entry)
    (u : DBMTable cdt_entry) (b : Bool) (e : cdc_entry)
    (h : e.catalog.length < CAT_CAT_LEN) :
    (add_cdc_entry e ⟨some t, some u, b, fs⟩).1 = 1 ∧
    get_cdc_entry (some e.catalog) (add_cdc_entry e ⟨some t, some u, b, fs⟩).2 = e := by
  have hn : ¬ e.catalog.length ≥ CAT_CAT_LEN := not_le.mpr h
  simp [add_cdc_entry, get_cdc_entry, dbm_store, dbm_fetch, hn,
    assoc_find_store_replace]

/-- C1 witness: a concrete record round-trips through an open empty store. -/
theorem add_then_get_cdc_witness :
    ("CD001" : String).length < CAT_CAT_LEN ∧
    ((add_cdc_entry ⟨"CD001", "t", "k", "a"⟩
        ⟨some ⟨[], []⟩, some ⟨[], []⟩, true, ⟨none, none⟩⟩).1 = 1 ∧
      get_cdc_entry (some "CD001")
        (add_cdc_entry ⟨"CD001", "t", "k", "a"⟩
          ⟨some ⟨[], []⟩, some ⟨[], []⟩, true, ⟨none, none⟩⟩).2 =
        ⟨"CD001", "t", "k", "a"⟩) :=
  ⟨by decide,
    add_then_get_cdc ⟨none, none⟩ ⟨[], []⟩ ⟨[], []⟩ true ⟨"CD001", "t", "k", "a"⟩
      (by decide)⟩

/-- C9: with the store open and the record's catalog shorter than
CAT_CAT_LEN, if add_cdt_entry returns success then get_cdt_entry on the same
(catalog, track_no) pair returns a record equal to the one stored.  (Inputs
whose composite key would overflow its fixed buffer have no defined result,
so they never satisfy the success hypothesis; claim C10 covers them.) -/
theorem add_then_get_cdt (fs : FileSys) (t : DBMTable cdc_entry)
    (u : DBMTable cdt_entry) (b : Bool) (e : cdt_entry)
    (h : e.catalog.length < CAT_CAT_LEN) (st' : GlobalState)
    (hadd : add_cdt_entry e ⟨some t, some u, b, fs⟩ = some (1, st')) :
    get_cdt_entry (some e.catalog) e.track_no st' = some e := by
  have hn : ¬ e.catalog.length ≥ CAT_CAT_LEN := not_le.mpr h
  by_cases hov : CAT_CAT_LEN + 10 < track_sprintf_len e.catalog e.track_no
  · simp [add_cdt_entry, hn, hov] at hadd
  · simp [add_cdt_entry, dbm_store, hn, hov] at hadd
    obtain ⟨rfl⟩ := hadd.symm
    simp [get_cdt_entry, dbm_fetch, hn, hov, assoc_find_store_replace]

/-- C9 witness: a concrete track record round-trips through an open empty
store. -/
theorem add_then_get_cdt_witness :
    ("CD001" : String).length < CAT_CAT_LEN ∧
    add_cdt_entry ⟨"CD001", 3, "track three"⟩
        ⟨some ⟨[], []⟩, some ⟨[], []⟩, true, ⟨none, none⟩⟩ =
      some (1, ⟨some ⟨[], []⟩,
        some ⟨[(trackKey "CD001" 3, ⟨"CD001", 3, "track three"⟩)], []⟩, true,
        ⟨none, none⟩⟩) ∧
    get_cdt_entry (some "CD001") 3
        ⟨some ⟨[], []⟩,
          some ⟨[(trackKey "CD001" 3, ⟨"CD001", 3, "track three"⟩)], []⟩, true,
          ⟨none, none⟩⟩ =
      some ⟨"CD001", 3, "track three"⟩ :=
  ⟨by decide, by decide,
    add_then_get_cdt ⟨none, none⟩ ⟨[], []⟩ ⟨[], []⟩ true ⟨"CD001", 3, "track three"⟩
      (by decide) _ (by decide)⟩

/-- C4: with the store open and a valid catalog key, del_cdc_entry returns
success exactly when a record with that key was present, and after a
successful delete a get_cdc_entry on the same key returns the empty
record. -/
theorem del_then_get_cdc (fs : FileSys) (t : DBMTable cdc_entry)
    (u : DBMTable cdt_entry) (b : Bool) (s : String)
    (h : s.length < CAT_CAT_LEN) (r : Int) (st' : GlobalState)
    (hdel : del_cdc_entry (some s) ⟨some t, some u, b, fs⟩ = some (r, st')) :
    (r = 1 → get_cdc_entry (some s) st' = empty_cdc) ∧
    (r = 1 ↔ (assoc_find (catKey s) t.entries).isSome) := by
  have hn : ¬ s.length ≥ CAT_CAT_LEN := not_le.mpr h
  by_cases hmem : (assoc_find (catKey s) t.entries).isSome
  · simp [del_cdc_entry, dbm_delete, hn, hmem] at hdel
    obtain ⟨rfl, rfl⟩ := hdel.symm
    simp [get_cdc_entry, dbm_fetch, hn, hmem, assoc_find_assoc_erase]
  · simp [del_cdc_entry, dbm_delete, hn, hmem] at hdel
    obtain ⟨rfl, rfl⟩ := hdel.symm
    simp [hmem]

/-- C4 witness: deleting a present key succeeds and leaves the key
unreadable; the success result matches presence. -/
theorem del_then_get_cdc_witness :
    ("CD001" : String).length < CAT_CAT_LEN ∧
    del_cdc_entry (some "CD001")
        ⟨some ⟨[(catKey "CD001", ⟨"CD001", "t", "k", "a"⟩)], []⟩, some ⟨[], []⟩,
          true, ⟨none, none⟩⟩ =
      some (1, ⟨some ⟨[], []⟩, some ⟨[], []⟩, true, ⟨none, none⟩⟩) ∧
    ((1 : Int) = 1 →
      get_cdc_entry (some "CD001")
        ⟨some ⟨[], []⟩, some ⟨[], []⟩, true, ⟨none, none⟩⟩ = empty_cdc) ∧
    ((1 : Int) = 1 ↔
      (assoc_find (catKey "CD001")
        [(catKey "CD001", (⟨"CD001", "t", "k", "a"⟩ : cdc_entry))]).isSome) :=
  ⟨by decide, by decide,
    del_then_get_cdc ⟨none, none⟩ ⟨[(catKey "CD001", ⟨"CD001", "t", "k", "a"⟩)], []⟩
      ⟨[], []⟩ true "CD001" (by decide) 1
      ⟨some ⟨[], []⟩, some ⟨[], []⟩, true, ⟨none, none⟩⟩ (by decide)⟩

/-! ## C3: soft-failure guards -/

/-- C3 counterexample: on an open store, del_cdc_entry with a NULL pointer
does not return the soft failure 0: it calls strlen on the NULL pointer,
which is undefined behavior (modelled as none).  The claim that every
operation returns empty or false on a null argument is therefore false for
the delete operations. -/
theorem del_cdc_null_not_soft_fail :
    del_cdc_entry none ⟨some ⟨[], []⟩, some ⟨[], []⟩, true, ⟨none, none⟩⟩ = none ∧
    del_cdc_entry none ⟨some ⟨[], []⟩, some ⟨[], []⟩, true, ⟨none, none⟩⟩ ≠
      some (0, ⟨some ⟨[], []⟩, some ⟨[], []⟩, true, ⟨none, none⟩⟩) := by
  decide

/-- C3 (amended): on a closed store every operation returns the empty record
or 0 and leaves the state untouched; a NULL string argument yields the empty
record with no state change for the operations that check it (get_cdc_entry,
get_cdt_entry, search_cdc_entry; the delete operations do not check and hit
undefined behavior instead, and the add operations take the record by value);
an over-length catalog key yields the empty record or 0 with no state change
for every operation. -/
theorem guard_soft_failures :
    (∀ (st : GlobalState), st.cdc_dbm_ptr = none ∨ st.cdt_dbm_ptr = none →
      ∀ (a : Option String) (n : Int) (e : cdc_entry) (e' : cdt_entry)
        (f : Option Bool),
        get_cdc_entry a st = empty_cdc ∧
        get_cdt_entry a n st = some empty_cdt ∧
        add_cdc_entry e st = (0, st) ∧
        add_cdt_entry e' st = some (0, st) ∧
        del_cdc_entry a st = some (0, st) ∧
        del_cdt_entry a n st = some (0, st) ∧
        search_cdc_entry a f st = (empty_cdc, f, st)) ∧
    (∀ (st : GlobalState) (n : Int) (f : Option Bool),
        get_cdc_entry none st = empty_cdc ∧
        get_cdt_entry none n st = some empty_cdt ∧
        search_cdc_entry none f st = (empty_cdc, f, st) ∧
        (∀ a, search_cdc_entry a none st = (empty_cdc, none, st))) ∧
    (∀ (st : GlobalState) (s : String) (n : Int) (f : Option Bool),
        CAT_CAT_LEN ≤ s.length →
        get_cdc_entry (some s) st = empty_cdc ∧
        get_cdt_entry (some s) n st = some empty_cdt ∧
        del_cdc_entry (some s) st = some (0, st) ∧
        del_cdt_entry (some s) n st = some (0, st) ∧
        search_cdc_entry (some s) f st = (empty_cdc, f, st)) ∧
    (∀ (st : GlobalState) (e : cdc_entry), CAT_CAT_LEN ≤ e.catalog.length →
        add_cdc_entry e st = (0, st)) ∧
    (∀ (st : GlobalState) (e' : cdt_entry), CAT_CAT_LEN ≤ e'.catalog.length →
        add_cdt_entry e' st = some (0, st)) := by
  refine ⟨?_, ?_, ?_, ?_, ?_⟩
  · rintro ⟨c1, c2, b, fs⟩ h a n e e' f
    cases c1 <;> cases c2 <;>
      simp_all [get_cdc_entry, get_cdt_entry, add_cdc_entry, add_cdt_entry,
        del_cdc_entry, del_cdt_entry, search_cdc_entry]
  · rintro ⟨c1, c2, b, fs⟩ n f
    cases c1 <;> cases c2 <;> cases f <;>
      simp [get_cdc_entry, get_cdt_entry, search_cdc_entry]
  · rintro ⟨c1, c2, b, fs⟩ s n f hlen
    cases c1 <;> cases c2 <;> cases f <;>
      simp_all [get_cdc_entry, get_cdt_entry, del_cdc_entry, del_cdt_entry,
        search_cdc_entry]
  · rintro ⟨c1, c2, b, fs⟩ e hlen
    cases c1 <;> cases c2 <;> simp_all [add_cdc_entry]
  · rintro ⟨c1, c2, b, fs⟩ e' hlen
    cases c1 <;> cases c2 <;> simp_all [add_cdt_entry]

/-- C3 witness: instantiation of the amended guard contract at a concrete
closed store, a NULL argument and an over-length key. -/
theorem guard_soft_failures_witness :
    ((⟨none, none, true, ⟨none, none⟩⟩ : GlobalState).cdc_dbm_ptr = none ∨
      (⟨none, none, true, ⟨none, none⟩⟩ : GlobalState).cdt_dbm_ptr = none) ∧
    CAT_CAT_LEN ≤ ("0123456789012345678901234567890123456789" : String).length ∧
    (get_cdc_entry (some "X") ⟨none, none, true, ⟨none, none⟩⟩ = empty_cdc ∧
      get_cdt_entry (some "X") 1 ⟨none, none, true, ⟨none, none⟩⟩ = some empty_cdt ∧
      add_cdc_entry ⟨"X", "", "", ""⟩ ⟨none, none, true, ⟨none, none⟩⟩ =
        (0, ⟨none, none, true, ⟨none, none⟩⟩) ∧
      add_cdt_entry ⟨"X", 1, ""⟩ ⟨none, none, true, ⟨none, none⟩⟩ =
        some (0, ⟨none, none, true, ⟨none, none⟩⟩) ∧
      del_cdc_entry (some "X") ⟨none, none, true, ⟨none, none⟩⟩ =
        some (0, ⟨none, none, true, ⟨none, none⟩⟩) ∧
      del_cdt_entry (some "X") 1 ⟨none, none, true, ⟨none, none⟩⟩ =
        some (0, ⟨none, none, true, ⟨none, none⟩⟩) ∧
      search_cdc_entry (some "X") (some true) ⟨none, none, true, ⟨none, none⟩⟩ =
        (empty_cdc, some true, ⟨none, none, true, ⟨none, none⟩⟩)) ∧
    get_cdc_entry none ⟨some ⟨[], []⟩, some ⟨[], []⟩, true, ⟨none, none⟩⟩ = empty_cdc ∧
    get_cdc_entry (some "0123456789012345678901234567890123456789")
        ⟨some ⟨[], []⟩, some ⟨[], []⟩, true, ⟨none, none⟩⟩ = empty_cdc :=
  ⟨Or.inl rfl, by decide,
    (guard_soft_failures.1 ⟨none, none, true, ⟨none, none⟩⟩ (Or.inl rfl)
      (some "X") 1 ⟨"X", "", "", ""⟩ ⟨"X", 1, ""⟩ (some true)),
    (guard_soft_failures.2.1 ⟨some ⟨[], []⟩, some ⟨[], []⟩, true, ⟨none, none⟩⟩
      1 (some true)).1,
    (guard_soft_failures.2.2.1 ⟨some ⟨[], []⟩, some ⟨[], []⟩, true, ⟨none, none⟩⟩
      "0123456789012345678901234567890123456789" 1 (some true) (by decide)).1⟩

/-! ## C7, C8: open/close lifecycle -/

/-- C7: the two handles transition together.  After database_initialize the
handles are either both open or both closed; whenever either dbm_open fails
the function returns 0 with both handles NULL; database_close always leaves
both handles NULL.  No partial-open state is observable. -/
theorem handles_transition_together (okc okt nw : Bool) (st : GlobalState)
    (r : Int) (st' : GlobalState)
    (h : database_initialize okc okt nw st = (r, st')) :
    ((st'.cdc_dbm_ptr.isSome ∧ st'.cdt_dbm_ptr.isSome) ∨
      (st'.cdc_dbm_ptr = none ∧ st'.cdt_dbm_ptr = none)) ∧
    (¬(okc = true ∧ okt = true) →
      r = 0 ∧ st'.cdc_dbm_ptr = none ∧ st'.cdt_dbm_ptr = none) ∧
    ((database_close st).cdc_dbm_ptr = none ∧ (database_close st).cdt_dbm_ptr = none) := by
  cases okc <;> cases okt <;>
    simp [ database_initialize, dbm_open_table] at h <;>
    obtain ⟨rfl, rfl⟩ := h <;>
    simp [database_close]

/-- C7 witness: a failed open (cdt open fails) collapses both handles. -/
theorem handles_transition_together_witness :
    database_initialize true false false
        ⟨some ⟨[], []⟩, some ⟨[], []⟩, true, ⟨none, none⟩⟩ =
      (0, ⟨none, none, true, ⟨some [], some []⟩⟩) ∧
    ((((⟨none, none, true, ⟨some [], some []⟩⟩ : GlobalState).cdc_dbm_ptr.isSome ∧
        (⟨none, none, true, ⟨some [], some []⟩⟩ : GlobalState).cdt_dbm_ptr.isSome) ∨
      ((⟨none, none, true, ⟨some [], some []⟩⟩ : GlobalState).cdc_dbm_ptr = none ∧
        (⟨none, none, true, ⟨some [], some []⟩⟩ : GlobalState).cdt_dbm_ptr = none)) ∧
      (¬(true = true ∧ false = true) →
        (0 : Int) = 0 ∧
        (⟨none, none, true, ⟨some [], some []⟩⟩ : GlobalState).cdc_dbm_ptr = none ∧
        (⟨none, none, true, ⟨some [], some []⟩⟩ : GlobalState).cdt_dbm_ptr = none) ∧
      ((database_close ⟨some ⟨[], []⟩, some ⟨[], []⟩, true, ⟨none, none⟩⟩).cdc_dbm_ptr = none ∧
        (database_close ⟨some ⟨[], []⟩, some ⟨[], []⟩, true, ⟨none, none⟩⟩).cdt_dbm_ptr = none)) :=
  ⟨by decide,
    handles_transition_together true false false
      ⟨some ⟨[], []⟩, some ⟨[], []⟩, true, ⟨none, none⟩⟩ 0
      ⟨none, none, true, ⟨some [], some []⟩⟩ (by decide)⟩

/-- C8: opening with the new-database flag set and succeeding yields an
empty store, whatever the prior state: the call returns 1 and every
subsequent key lookup returns the empty record (for track lookups, every
defined result is the empty record; inputs whose composite key would
overflow its buffer have no defined result, see C10). -/
theorem reset_gives_empty_store (st : GlobalState) (r : Int) (st' : GlobalState)
    (h : database_initialize true true true st = (r, st')) :
    r = 1 ∧
    (∀ a : Option String, get_cdc_entry a st' = empty_cdc) ∧
    (∀ (a : Option String) (n : Int) (e : cdt_entry),
      get_cdt_entry a n st' = some e → e = empty_cdt) := by
  simp [ database_initialize, dbm_open_table] at h
  obtain ⟨rfl, rfl⟩ := h
  refine ⟨rfl, ?_, ?_⟩
  · rintro (_ | s)
    · rfl
    · by_cases hs : s.length ≥ CAT_CAT_LEN <;>
        simp [get_cdc_entry, dbm_fetch, assoc_find, hs]
  · rintro (_ | s) n e he
    · simpa [get_cdt_entry] using he.symm
    · by_cases hs : s.length ≥ CAT_CAT_LEN
      · simpa [get_cdt_entry, hs] using he.symm
      · by_cases hov : CAT_CAT_LEN + 10 < track_sprintf_len s n
        · simp [get_cdt_entry, hs, hov] at he
        · simpa [get_cdt_entry, hs, hov, dbm_fetch, assoc_find] using he.symm

/-- C8 witness: resetting a store that previously held a record leaves
nothing readable. -/
theorem reset_gives_empty_store_witness :
    database_initialize true true true
        ⟨some ⟨[(catKey "CD001", ⟨"CD001", "t", "k", "a"⟩)], []⟩, some ⟨[], []⟩,
          true, ⟨none, none⟩⟩ =
      (1, ⟨some ⟨[], []⟩, some ⟨[], []⟩, true, ⟨some [], some []⟩⟩) ∧
    ((1 : Int) = 1 ∧
      (∀ a : Option String,
        get_cdc_entry a ⟨some ⟨[], []⟩, some ⟨[], []⟩, true, ⟨some [], some []⟩⟩ =
          empty_cdc) ∧
      (∀ (a : Option String) (n : Int) (e : cdt_entry),
        get_cdt_entry a n ⟨some ⟨[], []⟩, some ⟨[], []⟩, true, ⟨some [], some []⟩⟩ =
          some e → e = empty_cdt)) :=
  ⟨by decide,
    reset_gives_empty_store
      ⟨some ⟨[(catKey "CD001", ⟨"CD001", "t", "k", "a"⟩)], []⟩, some ⟨[], []⟩,
        true, ⟨none, none⟩⟩ 1
      ⟨some ⟨[], []⟩, some ⟨[], []⟩, true, ⟨some [], some []⟩⟩ (by decide)⟩

/-! ## C5, C10: the composite track key -/

/-- The length of a zero-padded key buffer is the buffer size whenever the
text fits. -/
theorem zeroPad_length (s : String) (size : Nat) (h : s.length ≤ size) :
    (zeroPad s size).length = size := by
  have hd : s.data.length = s.length := rfl
  simp [zeroPad, hd]
  omega

/-- The track-key formula exactly as the claim states it: the composite text
zero-filled to a fixed buffer of bound plus 9 bytes. -/
def trackKeySpec (s : String) (n : Int) : List Char :=
  zeroPad (s ++ " " ++ toString n) (CAT_CAT_LEN + 9)

/-- A store whose track table holds a record filed under the bound-plus-9
key the claim describes. -/
def c5_state : GlobalState :=
  ⟨some ⟨[], []⟩, some ⟨[(trackKeySpec "A" 1, ⟨"A", 1, "t"⟩)], []⟩, true,
    ⟨none, none⟩⟩

/-- C5 counterexample: the key the code builds is the whole
char[CAT_CAT_LEN + 10] buffer, not a bound-plus-9 one: its length is
CAT_CAT_LEN + 10, it differs from the bound-plus-9 padded text, and on a
store holding a record under the bound-plus-9 key, get_cdt_entry with the
matching catalog and track number does not find it. -/
theorem track_key_size_mismatch :
    (trackKey "A" 1).length = CAT_CAT_LEN + 10 ∧
    (trackKey "A" 1).length ≠ CAT_CAT_LEN + 9 ∧
    trackKey "A" 1 ≠ trackKeySpec "A" 1 ∧
    get_cdt_entry (some "A") 1 c5_state = some empty_cdt := by
  decide

/-- C5 (amended): for every track operation with valid arguments whose
composite text fits the buffer, the key is the decimal-ASCII text of
catalog, space, track number, null-padded to a fixed buffer of exactly
CAT_CAT_LEN + 10 bytes (bound plus 10, not bound plus 9), and the whole
fixed-size buffer including trailing zero bytes is what get_cdt_entry,
add_cdt_entry and del_cdt_entry hand to the engine. -/
theorem track_key_encoding (fs : FileSys) (t : DBMTable cdc_entry)
    (u : DBMTable cdt_entry) (b : Bool) (s : String) (n : Int) (e : cdt_entry)
    (hs : s.length < CAT_CAT_LEN)
    (hfit : s.length + 1 + (toString n).length ≤ CAT_CAT_LEN + 9)
    (hc : e.catalog = s) (ht : e.track_no = n) :
    trackKey s n = zeroPad (s ++ " " ++ toString n) (CAT_CAT_LEN + 10) ∧
    (trackKey s n).length = CAT_CAT_LEN + 10 ∧
    get_cdt_entry (some s) n ⟨some t, some u, b, fs⟩ =
      some (match assoc_find (trackKey s n) u.entries with
        | some v => v
        | none => empty_cdt) ∧
    add_cdt_entry e ⟨some t, some u, b, fs⟩ =
      some (1, ⟨some t, some ⟨store_replace (trackKey s n) e u.entries, u.cursor⟩,
        b, fs⟩) ∧
    del_cdt_entry (some s) n ⟨some t, some u, b, fs⟩ =
      some (if (assoc_find (trackKey s n) u.entries).isSome then 1 else 0,
        ⟨some t, some (dbm_delete u (trackKey s n)).1, b, fs⟩) := by
  subst hc
  subst ht
  have hn : ¬ e.catalog.length ≥ CAT_CAT_LEN := not_le.mpr hs
  have hone : (" " : String).length = 1 := rfl
  have htext : (e.catalog ++ " " ++ toString e.track_no).length =
      e.catalog.length + 1 + (toString e.track_no).length := by
    simp [String.length_append, hone]
  have hov : ¬ CAT_CAT_LEN + 10 < track_sprintf_len e.catalog e.track_no := by
    simp only [track_sprintf_len]
    omega
  refine ⟨rfl, ?_, ?_, ?_, ?_⟩
  · rw [trackKey, zeroPad_length _ _ (by omega)]
  · simp [get_cdt_entry, dbm_fetch, hn, hov]
  · simp [add_cdt_entry, dbm_store, hn, hov]
  · by_cases hmem : (assoc_find (trackKey e.catalog e.track_no) u.entries).isSome <;>
      simp [del_cdt_entry, dbm_delete, hn, hov, hmem]

/-- C5 amended-claim witness: the encoding contract at a concrete catalog
and track number. -/
theorem track_key_encoding_witness :
    ("CD001" : String).length < CAT_CAT_LEN ∧
    ("CD001" : String).length + 1 + (toString (3 : Int)).length ≤ CAT_CAT_LEN + 9 ∧
    (trackKey "CD001" 3 = zeroPad ("CD001" ++ " " ++ toString (3 : Int)) (CAT_CAT_LEN + 10) ∧
      (trackKey "CD001" 3).length = CAT_CAT_LEN + 10 ∧
      get_cdt_entry (some "CD001") 3 ⟨some ⟨[], []⟩, some ⟨[], []⟩, true, ⟨none, none⟩⟩ =
        some (match assoc_find (trackKey "CD001" 3)
            ([] : List (List Char × cdt_entry)) with
          | some v => v
          | none => empty_cdt) ∧
      add_cdt_entry ⟨"CD001", 3, "x"⟩ ⟨some ⟨[], []⟩, some ⟨[], []⟩, true, ⟨none, none⟩⟩ =
        some (1, ⟨some ⟨[], []⟩,
          some ⟨store_replace (trackKey "CD001" 3) ⟨"CD001", 3, "x"⟩ [], []⟩, true,
          ⟨none, none⟩⟩) ∧
      del_cdt_entry (some "CD001") 3 ⟨some ⟨[], []⟩, some ⟨[], []⟩, true, ⟨none, none⟩⟩ =
        some (if (assoc_find (trackKey "CD001" 3)
            ([] : List (List Char × cdt_entry))).isSome then 1 else 0,
          ⟨some ⟨[], []⟩, some (dbm_delete ⟨[], []⟩ (trackKey "CD001" 3)).1, true,
          ⟨none, none⟩⟩)) :=
  ⟨by decide, by decide,
    track_key_encoding ⟨none, none⟩ ⟨[], []⟩ ⟨[], []⟩ true "CD001" 3 ⟨"CD001", 3, "x"⟩
      (by decide) (by decide) rfl rfl⟩

/-- C10: the track operations never validate track_no.  With the store open
and a valid catalog, each of get_cdt_entry, add_cdt_entry and del_cdt_entry
reaches the unchecked sprintf for every track number, and the write stays
inside the char[CAT_CAT_LEN + 10] buffer exactly when the catalog length
plus one plus the length of the decimal text of track_no (minus sign
included) is at most CAT_CAT_LEN + 9; beyond that bound the operation has no
defined result (the write exceeds the buffer), and such inputs exist with a
near-bound catalog and a long track number. -/
theorem track_no_unvalidated_overflow (fs : FileSys) (t : DBMTable cdc_entry)
    (u : DBMTable cdt_entry) (b : Bool) (s : String) (n : Int) (e : cdt_entry)
    (hs : s.length < CAT_CAT_LEN) (hc : e.catalog = s) (ht : e.track_no = n) :
    (get_cdt_entry (some s) n ⟨some t, some u, b, fs⟩ = none ↔
      CAT_CAT_LEN + 9 < s.length + 1 + (toString n).length) ∧
    (add_cdt_entry e ⟨some t, some u, b, fs⟩ = none ↔
      CAT_CAT_LEN + 9 < s.length + 1 + (toString n).length) ∧
    (del_cdt_entry (some s) n ⟨some t, some u, b, fs⟩ = none ↔
      CAT_CAT_LEN + 9 < s.length + 1 + (toString n).length) ∧
    (∃ (s' : String) (n' : Int), s'.length < CAT_CAT_LEN ∧
      CAT_CAT_LEN + 9 < s'.length + 1 + (toString n').length) := by
  subst hc
  subst ht
  have hn : ¬ e.catalog.length ≥ CAT_CAT_LEN := not_le.mpr hs
  have hkey : (CAT_CAT_LEN + 10 < track_sprintf_len e.catalog e.track_no) ↔
      (CAT_CAT_LEN + 9 < e.catalog.length + 1 + (toString e.track_no).length) := by
    simp only [track_sprintf_len]
    omega
  refine ⟨?_, ?_, ?_,
    ⟨"AAAAAAAAAAAAAAAAAAAAAAAAAAAAA", 1000000000, by decide, by decide⟩⟩ <;>
    by_cases hov : CAT_CAT_LEN + 10 < track_sprintf_len e.catalog e.track_no <;>
    simp [get_cdt_entry, add_cdt_entry, del_cdt_entry, dbm_store, hn, hov,
      hkey.symm]

/-- C10 witness: the overflow characterisation at a concrete in-range input
(the conclusion also exhibits a concrete overflowing input). -/
theorem track_no_unvalidated_overflow_witness :
    ("CD001" : String).length < CAT_CAT_LEN ∧
    ((get_cdt_entry (some "CD001") 3 ⟨some ⟨[], []⟩, some ⟨[], []⟩, true, ⟨none, none⟩⟩ =
        none ↔
      CAT_CAT_LEN + 9 < ("CD001" : String).length + 1 + (toString (3 : Int)).length) ∧
    (add_cdt_entry ⟨"CD001", 3, "x"⟩ ⟨some ⟨[], []⟩, some ⟨[], []⟩, true, ⟨none, none⟩⟩ =
        none ↔
      CAT_CAT_LEN + 9 < ("CD001" : String).length + 1 + (toString (3 : Int)).length) ∧
    (del_cdt_entry (some "CD001") 3 ⟨some ⟨[], []⟩, some ⟨[], []⟩, true, ⟨none, none⟩⟩ =
        none ↔
      CAT_CAT_LEN + 9 < ("CD001" : String).length + 1 + (toString (3 : Int)).length) ∧
    (∃ (s' : String) (n' : Int), s'.length < CAT_CAT_LEN ∧
      CAT_CAT_LEN + 9 < s'.length + 1 + (toString n').length)) :=
  ⟨by decide,
    track_no_unvalidated_overflow ⟨none, none⟩ ⟨[], []⟩ ⟨[], []⟩ true "CD001" 3
      ⟨"CD001", 3, "x"⟩ (by decide) rfl rfl⟩

/-! ## C6: the first-call latch of search_cdc_entry -/

/-- A freshly opened store holding one matching record, with the static
first-call latch still set. -/
def c6_state : GlobalState :=
  ⟨some ⟨[(catKey "AAA1", ⟨"AAA1", "t", "k", "a"⟩)], []⟩, some ⟨[], []⟩, true,
    ⟨none, none⟩⟩

/-- C6 counterexample: on the very first call since process start, passing
false in *first_call_ptr does force a fresh scan (the record at the start of
the table is returned), but the flag the caller reads back afterwards is
false — identical to what was passed — so no fresh-start indication ever
reaches the caller: the flag is reset to false before returning. -/
theorem first_call_flag_not_reported :
    (search_cdc_entry (some "AAA") (some false) c6_state).1 = ⟨"AAA1", "t", "k", "a"⟩ ∧
    (search_cdc_entry (some "AAA") (some false) c6_state).2.1 = some false ∧
    (search_cdc_entry (some "AAA") (some false) c6_state).2.1 ≠ some true := by
  decide

/-- C6 (amended): on the very first call since process start (store open,
valid arguments) the scan starts from the beginning of the catalog table
regardless of the flag value the caller passed, and the static latch is
cleared; but the flag handed back through *first_call_ptr is always false
(on every valid-argument call), so the forced fresh start is not reported
to the caller. -/
theorem first_call_forces_fresh_scan (fs : FileSys)
    (es c : List (List Char × cdc_entry)) (u : DBMTable cdt_entry)
    (cat : String) (fc0 : Bool) (h : cat.length < CAT_CAT_LEN) :
    search_cdc_entry (some cat) (some fc0) ⟨some ⟨es, c⟩, some u, true, fs⟩ =
      search_cdc_entry (some cat) (some true) ⟨some ⟨es, c⟩, some u, true, fs⟩ ∧
    (search_cdc_entry (some cat) (some fc0) ⟨some ⟨es, c⟩, some u, true, fs⟩).2.1 =
      some false ∧
    (search_cdc_entry (some cat) (some fc0)
        ⟨some ⟨es, c⟩, some u, true, fs⟩).2.2.local_first_call = false ∧
    (∀ (b fc' : Bool),
      (search_cdc_entry (some cat) (some fc')
          ⟨some ⟨es, c⟩, some u, b, fs⟩).2.1 = some false) := by
  have hn : ¬ cat.length ≥ CAT_CAT_LEN := not_le.mpr h
  refine ⟨?_, ?_, ?_, ?_⟩
  · simp [search_cdc_entry, hn]
  · simp [search_cdc_entry, hn]
  · simp [search_cdc_entry, hn]
  · intro b fc'
    cases b <;> cases fc' <;> simp [search_cdc_entry, hn]

/-- C6 amended-claim witness: the forced fresh start at a concrete store,
with the flag coming back false. -/
theorem first_call_forces_fresh_scan_witness :
    ("AAA" : String).length < CAT_CAT_LEN ∧
    (search_cdc_entry (some "AAA") (some false) c6_state =
        search_cdc_entry (some "AAA") (some true) c6_state ∧
      (search_cdc_entry (some "AAA") (some false) c6_state).2.1 = some false ∧
      (search_cdc_entry (some "AAA") (some false) c6_state).2.2.local_first_call =
        false ∧
      (∀ (b fc' : Bool),
        (search_cdc_entry (some "AAA") (some fc')
            ⟨some ⟨[(catKey "AAA1", ⟨"AAA1", "t", "k", "a"⟩)], []⟩, some ⟨[], []⟩, b,
              ⟨none, none⟩⟩).2.1 = some false)) :=
  ⟨by decide,
    first_call_forces_fresh_scan ⟨none, none⟩
      [(catKey "AAA1", ⟨"AAA1", "t", "k", "a"⟩)] [] ⟨[], []⟩ "AAA" false (by decide)⟩

/-! ## C2: scan completeness -/

/-- The head surviving a dropWhile of non-matching elements matches. -/
theorem dropWhile_not_head {α : Type} (p : α → Bool) (l : List α) (q : α)
    (r : List α) (h : l.dropWhile (fun a => !p a) = q :: r) : p q = true := by
  induction l with
  | nil => simp at h
  | cons a l ih =>
    rw [List.dropWhile_cons] at h
    by_cases ha : p a
    · simp [ha] at h
      rwa [← h.1]
    · simp [ha] at h
      exact ih h

/-- If dropping the non-matching prefix exhausts the list, nothing
matches. -/
theorem filter_of_dropWhile_nil {α : Type} (p : α → Bool) (l : List α)
    (h : l.dropWhile (fun a => !p a) = []) : l.filter p = [] := by
  rw [List.dropWhile_eq_nil_iff] at h
  rw [List.filter_eq_nil_iff]
  intro a ha
  simpa using h a ha

/-- Dropping the non-matching prefix commutes with filtering: the matches of
the whole list are the head found by dropWhile followed by the matches of
its tail. -/
theorem filter_of_dropWhile_cons {α : Type} (p : α → Bool) (l : List α)
    (q : α) (r : List α) (h : l.dropWhile (fun a => !p a) = q :: r) :
    l.filter p = q :: r.filter p := by
  induction l with
  | nil => simp at h
  | cons a l ih =>
    rw [List.dropWhile_cons] at h
    by_cases ha : p a
    · simp [ha] at h
      obtain ⟨rfl, rfl⟩ := h
      simp [List.filter_cons, ha]
    · simp [ha] at h
      simp [List.filter_cons, ha, ih h]

/-- Filtering through a mapped predicate commutes with mapping. -/
theorem filter_comp_map {α β : Type} (f : α → β) (q : β → Bool) (l : List α) :
    (l.filter (fun a => q (f a))).map f = (l.map f).filter q := by
  induction l with
  | nil => rfl
  | cons a l ih => by_cases h : q (f a) <;> simp [List.filter_cons, h, ih]

/-- What the search loop computes: started on any cursor suffix of a table
with pairwise distinct keys (and enough fuel — one unit per remaining
position plus one), it stops at the first remaining entry whose catalog
contains the search string, returning that record with the cursor parked on
it, or returns the all-zero record with the cursor exhausted. -/
theorem search_loop_spec (cat : List Char) (es : List (List Char × cdc_entry))
    (hdist : es.Pairwise (fun a b => a.1 ≠ b.1)) :
    ∀ (c : List (List Char × cdc_entry)) (fuel : Nat), c <:+ es →
      c.length + 1 ≤ fuel →
      search_loop cat fuel ⟨es, c⟩ (c.head?.map (fun p => p.1)) =
        match c.dropWhile (fun p => !isSubstring cat p.2.catalog.data) with
        | [] => (empty_cdc, ⟨es, []⟩)
        | p :: r => (p.2, ⟨es, p :: r⟩) := by
  intro c
  induction c with
  | nil =>
    intro fuel _ hfuel
    obtain ⟨f, rfl⟩ : ∃ f, fuel = f + 1 := ⟨fuel - 1, by omega⟩
    rfl
  | cons p r ih =>
    intro fuel hsuf hfuel
    obtain ⟨f, rfl⟩ : ∃ f, fuel = f + 1 := ⟨fuel - 1, by omega⟩
    have hfind : assoc_find p.1 es = some p.2 := assoc_find_of_suffix hdist hsuf
    have hr : r <:+ es := (List.suffix_cons p r).trans hsuf
    by_cases hm : isSubstring cat p.2.catalog.data
    · simp [search_loop, dbm_fetch, hfind, hm, List.dropWhile_cons]
    · have hrec := ih f hr (by simp at hfuel ⊢; omega)
      simp only [search_loop, dbm_fetch, hfind, hm, dbm_nextkey, List.tail_cons,
        List.dropWhile_cons, Bool.not_eq_true', if_neg, Bool.not_true,
        Bool.not_false, if_true, if_false]
      simp [hm]
      exact hrec

/-- A resumed search call (flag false, latch clear): dbm_nextkey advances
past the parked position and the loop takes over; the cursor tail's first
match is returned, or the all-zero record on exhaustion. -/
theorem search_call_next (fs : FileSys) (es c : List (List Char × cdc_entry))
    (u : DBMTable cdt_entry) (cat : String) (hlen : cat.length < CAT_CAT_LEN)
    (hdist : es.Pairwise (fun a b => a.1 ≠ b.1)) (hsuf : c <:+ es) :
    search_cdc_entry (some cat) (some false) ⟨some ⟨es, c⟩, some u, false, fs⟩ =
      match c.tail.dropWhile (fun p => !isSubstring cat.data p.2.catalog.data) with
      | [] => (empty_cdc, some false, ⟨some ⟨es, []⟩, some u, false, fs⟩)
      | p :: rest => (p.2, some false, ⟨some ⟨es, p :: rest⟩, some u, false, fs⟩) := by
  have hn : ¬ cat.length ≥ CAT_CAT_LEN := not_le.mpr hlen
  have htail : c.tail <:+ es := (List.tail_suffix c).trans hsuf
  have hspec := search_loop_spec cat.data es hdist c.tail (c.tail.length + 1) htail
    (le_refl _)
  rcases hdw : c.tail.dropWhile (fun p => !isSubstring cat.data p.2.catalog.data) with
    _ | ⟨p, rest⟩ <;>
    rw [hdw] at hspec <;>
    simp at hspec <;>
    simp [search_cdc_entry, dbm_nextkey, hn, hspec, hdw]

/-- A fresh-start search call (flag true, any latch value): dbm_firstkey
rewinds to the start of the table and the loop takes over; the table's first
match is returned, or the all-zero record if nothing matches. -/
theorem search_call_first (fs : FileSys) (es c : List (List Char × cdc_entry))
    (u : DBMTable cdt_entry) (cat : String) (hlen : cat.length < CAT_CAT_LEN)
    (hdist : es.Pairwise (fun a b => a.1 ≠ b.1)) (b : Bool) :
    search_cdc_entry (some cat) (some true) ⟨some ⟨es, c⟩, some u, b, fs⟩ =
      match es.dropWhile (fun p => !isSubstring cat.data p.2.catalog.data) with
      | [] => (empty_cdc, some false, ⟨some ⟨es, []⟩, some u, false, fs⟩)
      | p :: rest => (p.2, some false, ⟨some ⟨es, p :: rest⟩, some u, false, fs⟩) := by
  have hn : ¬ cat.length ≥ CAT_CAT_LEN := not_le.mpr hlen
  have hspec := search_loop_spec cat.data es hdist es (es.length + 1)
    (List.suffix_refl es) (le_refl _)
  cases b <;>
    rcases hdw : es.dropWhile (fun p => !isSubstring cat.data p.2.catalog.data) with
      _ | ⟨p, rest⟩ <;>
    rw [hdw] at hspec <;>
    simp at hspec <;>
    simp [search_cdc_entry, dbm_firstkey, hn, hspec, hdw]

/-- A whole resumed scan session: with the cursor parked on some suffix of
the table, the remaining calls (flag false throughout, as the store leaves
it) return exactly the matching records past the parked position, one per
call and in table order, then the all-zero record. -/
theorem scan_session (fs : FileSys) (es : List (List Char × cdc_entry))
    (u : DBMTable cdt_entry) (cat : String) (hlen : cat.length < CAT_CAT_LEN)
    (hdist : es.Pairwise (fun a b => a.1 ≠ b.1)) :
    ∀ (N : Nat) (c : List (List Char × cdc_entry)), c.length ≤ N → c <:+ es →
      scan_calls (some cat) (some false) ⟨some ⟨es, c⟩, some u, false, fs⟩
          ((c.tail.filter (fun p => isSubstring cat.data p.2.catalog.data)).length + 1) =
        (c.tail.filter (fun p => isSubstring cat.data p.2.catalog.data)).map
            (fun p => p.2) ++ [empty_cdc] := by
  intro N
  induction N with
  | zero =>
    intro c hc hsuf
    have hc0 : c = [] := List.length_eq_zero.mp (Nat.le_zero.mp hc)
    subst hc0
    have hcall := search_call_next fs es [] u cat hlen hdist hsuf
    simp at hcall
    simp [scan_calls, hcall]
  | succ N ihN =>
    intro c hc hsuf
    have hcall := search_call_next fs es c u cat hlen hdist hsuf
    rcases hdw : c.tail.dropWhile (fun p => !isSubstring cat.data p.2.catalog.data) with
      _ | ⟨p, rest⟩
    · rw [hdw] at hcall
      have hfilt := filter_of_dropWhile_nil
        (fun p => isSubstring cat.data p.2.catalog.data) c.tail hdw
      simp [hfilt, scan_calls, hcall]
    · rw [hdw] at hcall
      have hfilt := filter_of_dropWhile_cons
        (fun p => isSubstring cat.data p.2.catalog.data) c.tail p rest hdw
      have hsub : (p :: rest) <:+ es :=
        (hdw ▸ List.dropWhile_suffix _).trans ((List.tail_suffix c).trans hsuf)
      have hlenb : (p :: rest).length ≤ N := by
        rcases c with _ | ⟨a, c'⟩
        · simp at hdw
        · have h1 : (p :: rest).length ≤ c'.length := by
            rw [← hdw]
            exact (List.dropWhile_suffix _).length_le
          simp at hc h1 ⊢
          omega
      have hrest := ihN (p :: rest) hlenb hsub
      rw [hfilt]
      simp only [List.length_cons]
      rw [scan_calls, hcall]
      simp only [List.tail_cons] at hrest
      simp [hrest]

/-- C2: on an open store whose catalog table holds records with catalog
values AAA1, AAA2 and BBB1 (in any engine order, under pairwise distinct
keys), a scan session for the string AAA started fresh returns, one per
call, exactly the records whose catalog contains AAA as a substring, in
engine iteration order, and then the all-zero record; those records are
exactly the ones with catalogs AAA1 and AAA2 — substring containment, not
exact or prefix match. -/
theorem scan_substring_completeness (fs : FileSys)
    (es c : List (List Char × cdc_entry)) (u : DBMTable cdt_entry) (b : Bool)
    (hdist : es.Pairwise (fun p q => p.1 ≠ q.1))
    (hcats : (es.map (fun p => p.2.catalog)).Perm ["AAA1", "AAA2", "BBB1"]) :
    scan_calls (some "AAA") (some true) ⟨some ⟨es, c⟩, some u, b, fs⟩
        ((es.filter (fun p => isSubstring "AAA".data p.2.catalog.data)).length + 1) =
      (es.filter (fun p => isSubstring "AAA".data p.2.catalog.data)).map
          (fun p => p.2) ++ [empty_cdc] ∧
    ((es.filter (fun p => isSubstring "AAA".data p.2.catalog.data)).map
        (fun p => p.2.catalog)).Perm ["AAA1", "AAA2"] := by
  constructor
  · have hlen : ("AAA" : String).length < CAT_CAT_LEN := by decide
    have hcall := search_call_first fs es c u "AAA" hlen hdist b
    rcases hdw : es.dropWhile (fun p => !isSubstring "AAA".data p.2.catalog.data) with
      _ | ⟨p, rest⟩
    · rw [hdw] at hcall
      have hfilt := filter_of_dropWhile_nil
        (fun p => isSubstring "AAA".data p.2.catalog.data) es hdw
      simp [hfilt, scan_calls, hcall]
    · rw [hdw] at hcall
      have hfilt := filter_of_dropWhile_cons
        (fun p => isSubstring "AAA".data p.2.catalog.data) es p rest hdw
      have hsub : (p :: rest) <:+ es := hdw ▸ List.dropWhile_suffix _
      have hrest := scan_session fs es u "AAA" hlen hdist es.length (p :: rest)
        hsub.length_le hsub
      rw [hfilt]
      simp only [List.length_cons]
      rw [scan_calls, hcall]
      simp only [List.tail_cons] at hrest
      simp [hrest]
  · rw [filter_comp_map (fun p => p.2.catalog)
      (fun s => isSubstring "AAA".data s.data) es]
    have h2 := hcats.filter (fun s => isSubstring "AAA".data s.data)
    rw [(by decide : (["AAA1", "AAA2", "BBB1"].filter
        (fun s => isSubstring "AAA".data s.data)) = ["AAA1", "AAA2"])] at h2
    exact h2

/-- A concrete catalog table for the scan-completeness scenario: records
AAA1, AAA2, BBB1 with BBB1 sitting between the two matches in engine
order. -/
def c2_entries : List (List Char × cdc_entry) :=
  [(catKey "AAA1", ⟨"AAA1", "t1", "k1", "a1"⟩),
   (catKey "BBB1", ⟨"BBB1", "t3", "k3", "a3"⟩),
   (catKey "AAA2", ⟨"AAA2", "t2", "k2", "a2"⟩)]

/-- C2 witness: the three-record store scanned for AAA yields AAA1 then
AAA2 then the all-zero record. -/
theorem scan_substring_completeness_witness :
    c2_entries.Pairwise (fun p q => p.1 ≠ q.1) ∧
    ((c2_entries.map (fun p => p.2.catalog)).Perm ["AAA1", "AAA2", "BBB1"]) ∧
    (scan_calls (some "AAA") (some true)
        ⟨some ⟨c2_entries, []⟩, some ⟨[], []⟩, true, ⟨none, none⟩⟩
        ((c2_entries.filter
            (fun p => isSubstring "AAA".data p.2.catalog.data)).length + 1) =
      (c2_entries.filter (fun p => isSubstring "AAA".data p.2.catalog.data)).map
          (fun p => p.2) ++ [empty_cdc] ∧
      ((c2_entries.filter (fun p => isSubstring "AAA".data p.2.catalog.data)).map
          (fun p => p.2.catalog)).Perm ["AAA1", "AAA2"]) :=
  ⟨by decide, by decide,
    scan_substring_completeness ⟨none, none⟩ c2_entries [] ⟨[], []⟩ true
      (by decide) (by decide)⟩
